import Mathlib

/-
Verification of the rsFarkle scoring engine and turn state machine.

The definitions below are a shallow embedding of the Rust code in
src/backend/farkle.rs and of the per-turn state machine in src/src/main.rs.
Machine integers (u32, usize) are modelled as Nat; the random source used by
new_roll is modelled as a stream of draws, each mapped into 1..=6 the way
rand::gen_range(1..=6) guarantees.  The six-die array of a Roll is modelled
as a function from Fin 6, matching the fixed-size array [Die; 6].
-/

namespace Farkle

/-- Constant STRAIGHT_VALUE from farkle.rs. -/
def STRAIGHT_VALUE : Nat := 3000

/-- Constant TRIPLE_PAIR_VALUE from farkle.rs. -/
def TRIPLE_PAIR_VALUE : Nat := 2000

/-- Constant ONE_VALUE from farkle.rs. -/
def ONE_VALUE : Nat := 100

/-- Constant ONE_SET_VALUE from farkle.rs. -/
def ONE_SET_VALUE : Nat := 1000

/-- Constant FIVE_VALUE from farkle.rs. -/
def FIVE_VALUE : Nat := 50

/-- Constant FIVE_SET_VALUE from farkle.rs. -/
def FIVE_SET_VALUE : Nat := 500

/-- Constant SET_SCALE_VALUE from farkle.rs. -/
def SET_SCALE_VALUE : Nat := 100

/-- The per-turn states of enum GameState in farkle.rs. -/
inductive GameState where
  | FirstRoll
  | Rolling
  | Picking
  | TurnEnded
deriving DecidableEq, Repr

/-- The roll classifications of enum RollType in farkle.rs. -/
inductive RollType where
  | Farkle
  | Simple
  | TriplePair
  | Straight
deriving DecidableEq, Repr

/-- The outcomes of Roll::toggle_die, enum ToggleResult in farkle.rs. -/
inductive ToggleResult where
  | Picked
  | Unpicked
  | NotPickable
  | NotUnpickable
deriving DecidableEq, Repr

/-- struct Die of farkle.rs: a face value (DieValue = usize, modelled as Nat)
and the two selection flags. -/
structure Die where
  value : Nat
  picked : Bool
  picked_this_roll : Bool
deriving DecidableEq, Repr

/-- Die::new_with_value from farkle.rs. -/
def Die.new_with_value (value : Nat) : Die :=
  { value := value, picked := false, picked_this_roll := false }

/-- Die::pick from farkle.rs: sets both flags. -/
def Die.pick (d : Die) : Die :=
  { d with picked := true, picked_this_roll := true }

/-- Die::unpick from farkle.rs: clears both flags. -/
def Die.unpick (d : Die) : Die :=
  { d with picked := false, picked_this_roll := false }

/-- struct Roll of farkle.rs: the fixed array of six dice, [Die; 6],
modelled as a function from Fin 6. -/
structure Roll where
  dice : Fin 6 → Die
deriving DecidableEq

/-- impl Default for Roll: dice from core array from_fn with value i + 1. -/
def Roll.default : Roll :=
  ⟨fun i => Die.new_with_value (i.val + 1)⟩

/-- Roll::is_exhausted from farkle.rs: every die is picked. -/
def Roll.is_exhausted (r : Roll) : Bool :=
  (List.finRange 6).all fun i => (r.dice i).picked

/-- The activity test inside Roll::count_values: a die is counted when
not picked, or picked in the current unconfirmed pass. -/
def Die.active (d : Die) : Bool :=
  !d.picked || d.picked_this_roll

/-- Roll::count_values from farkle.rs.  The Rust code builds an array res
with res[v - 1] holding the number of active dice of face value v; here
count_values r v is that entry, v ranging over 1..=6. -/
def count_values (r : Roll) (v : Nat) : Nat :=
  ((List.finRange 6).filter fun i => (r.dice i).active && (r.dice i).value == v).length

/-- The per-die required count inside Roll::determine_pickable:
1 for faces 1 and 5, otherwise 3. -/
def required (v : Nat) : Nat :=
  if v = 1 ∨ v = 5 then 1 else 3

/-- The per-die condition computed by Roll::determine_pickable:
not yet picked and the active count of its face reaches the requirement. -/
def pickable (r : Roll) (d : Die) : Bool :=
  !d.picked && decide (required d.value ≤ count_values r d.value)

/-- Roll::determine_pickable from farkle.rs (with occurrences = None,
so the counts are computed from the roll itself). -/
def determine_pickable (r : Roll) : Fin 6 → Bool :=
  fun i => pickable r (r.dice i)

/-- Roll::toggle_die from farkle.rs.  The index is Fin 6 because the Rust
code indexes the array directly and would panic out of range.  A picked die
is unpicked (Roll::unpick_die) exactly when picked_this_roll holds; an
unpicked die is picked (Roll::pick_die) exactly when determine_pickable
allows it at the moment of the call. -/
def toggle_die (r : Roll) (i : Fin 6) : Roll × ToggleResult :=
  let d := r.dice i
  if d.picked then
    if d.picked_this_roll then
      (⟨Function.update r.dice i d.unpick⟩, ToggleResult.Unpicked)
    else
      (r, ToggleResult.NotUnpickable)
  else if pickable r d then
    (⟨Function.update r.dice i d.pick⟩, ToggleResult.Picked)
  else
    (r, ToggleResult.NotPickable)

/-- Roll::deselect from farkle.rs: unpick_die on every index, which unpicks
exactly the dice with picked_this_roll set. -/
def Roll.deselect (r : Roll) : Roll :=
  ⟨fun i => if (r.dice i).picked_this_roll then (r.dice i).unpick else r.dice i⟩

/-- Roll::new_roll from farkle.rs.  rng models the stream of draws of
rand::thread_rng().gen_range(1..=6): draw n yields n % 6 + 1, always in
1..=6.  If the roll is exhausted it is first replaced by Roll::default();
then every unpicked die is re-rolled and every picked die only has its
picked_this_roll flag cleared. -/
def new_roll (rng : Fin 6 → Nat) (r : Roll) : Roll :=
  let r0 := if r.is_exhausted then Roll.default else r
  ⟨fun i =>
    let d := r0.dice i
    if d.picked then { d with picked_this_roll := false }
    else { d with value := rng i % 6 + 1 }⟩

/-- struct Selection of farkle.rs: the scored face values in die order and
the point total (u32, modelled as Nat). -/
structure Selection where
  values : List Nat
  value : Nat
deriving DecidableEq, Repr

/-- Selection::default(): empty values, value 0. -/
def Selection.default : Selection :=
  ⟨[], 0⟩

/-- Roll::determine_type from farkle.rs.  The Rust method mutates self when
it auto-picks a straight or triple pair, so the result carries the updated
roll.  is_straight and is_triple_pair come from the loop over the six
counts: every count must equal 1 (straight) or every count must equal 2
(triple pair); the early break in the loop does not change the outcome.
On a straight or triple pair every die value is pushed onto the selection
in die order and every die is picked; otherwise the roll is untouched and
the selection stays Selection::default(). -/
def determine_type (r : Roll) : Roll × Selection × RollType :=
  let is_straight := (List.range 6).all fun j => count_values r (j + 1) == 1
  let is_triple_pair := (List.range 6).all fun j => count_values r (j + 1) == 2
  if is_straight || is_triple_pair then
    let sel_values := (List.finRange 6).map fun i => (r.dice i).value
    let rPicked : Roll := ⟨fun i => (r.dice i).pick⟩
    if is_straight then
      (rPicked, ⟨sel_values, STRAIGHT_VALUE⟩, RollType.Straight)
    else
      (rPicked, ⟨sel_values, TRIPLE_PAIR_VALUE⟩, RollType.TriplePair)
  else if (List.finRange 6).any fun i => pickable r (r.dice i) then
    (r, Selection.default, RollType.Simple)
  else
    (r, Selection.default, RollType.Farkle)

/-- The two error messages Roll::construct_selection can return, modelled
as an enumeration.  nonScoringSet stands for the message about selecting
3 or more dice of a face other than 1 or 5; nonPositive stands for the
message that a selection must have positive value. -/
inductive SelError where
  | nonScoringSet
  | nonPositive
deriving DecidableEq, Repr

/-- The chosen array built by Roll::construct_selection: chosen[v - 1] is
the number of dice with picked_this_roll set whose face value is v. -/
def chosen_count (r : Roll) (v : Nat) : Nat :=
  ((List.finRange 6).filter fun i => (r.dice i).picked_this_roll && (r.dice i).value == v).length

/-- The values pushed onto the selection by Roll::construct_selection:
the face values of the dice with picked_this_roll set, in die order. -/
def chosen_values (r : Roll) : List Nat :=
  (((List.finRange 6).filter fun i => (r.dice i).picked_this_roll).map fun i => (r.dice i).value)

/-- One iteration of the loop over chosen[1..] (skipping index 4) in
Roll::construct_selection, for face value v with count c: a count of 3 or
more contributes v * SET_SCALE_VALUE * (c - 2), a count of 0 contributes
nothing, and a count of 1 or 2 is the non-scoring-set error. -/
def face_set_score (v c : Nat) : Except SelError Nat :=
  if 3 ≤ c then Except.ok (v * SET_SCALE_VALUE * (c - 2))
  else if c = 0 then Except.ok 0
  else Except.error SelError.nonScoringSet

/-- The contribution of face 1 in Roll::construct_selection. -/
def ones_score (c : Nat) : Nat :=
  if 3 ≤ c then ONE_SET_VALUE * (c - 2) else ONE_VALUE * c

/-- The contribution of face 5 in Roll::construct_selection. -/
def fives_score (c : Nat) : Nat :=
  if 3 ≤ c then FIVE_SET_VALUE * (c - 2) else FIVE_VALUE * c

/-- Roll::construct_selection from farkle.rs.  The method takes &self and
returns Result<Selection, &str>.  The loop over faces 2, 3, 4, 6 (array
indices 1, 2, 3, 5, index 4 skipped) errors on the first face with a count
of 1 or 2; all four error arms carry the same message, so the four-way
match reproduces the loop.  The total then adds the face-1 and face-5
contributions and must be strictly positive. -/
def construct_selection (r : Roll) : Except SelError Selection :=
  match face_set_score 2 (chosen_count r 2), face_set_score 3 (chosen_count r 3),
        face_set_score 4 (chosen_count r 4), face_set_score 6 (chosen_count r 6) with
  | Except.ok s2, Except.ok s3, Except.ok s4, Except.ok s6 =>
      let total := s2 + s3 + s4 + s6 + ones_score (chosen_count r 1)
        + fives_score (chosen_count r 5)
      if 0 < total then Except.ok ⟨chosen_values r, total⟩
      else Except.error SelError.nonPositive
  | Except.error e, _, _, _ => Except.error e
  | _, Except.error e, _, _ => Except.error e
  | _, _, Except.error e, _ => Except.error e
  | _, _, _, Except.error e => Except.error e

/-- struct Player of farkle.rs: the hand of unbanked selections, the banked
score (u32, modelled as Nat) and the display name. -/
structure Player where
  hand : List Selection
  score : Nat
  name : String
deriving DecidableEq, Repr

/-- Player::new from farkle.rs. -/
def Player.new (name : String) : Player :=
  { hand := [], score := 0, name := name }

/-- Player::empty_hand from farkle.rs. -/
def Player.empty_hand (p : Player) : Player :=
  { p with hand := [] }

/-- Player::add_selection from farkle.rs: push onto the hand. -/
def Player.add_selection (p : Player) (s : Selection) : Player :=
  { p with hand := p.hand ++ [s] }

/-- Player::undo_selection from farkle.rs: pop the most recent selection. -/
def Player.undo_selection (p : Player) : Player × Option Selection :=
  match p.hand.getLast? with
  | none => (p, none)
  | some s => ({ p with hand := p.hand.dropLast }, some s)

/-- Player::bank from farkle.rs: fold the hand values into a total, add it
to the score, empty the hand, and return the total. -/
def Player.bank (p : Player) : Player × Nat :=
  let total := p.hand.foldl (fun acc sel => acc + sel.value) 0
  ({ p with score := p.score + total, hand := [] }, total)

/-- The MoveType::Roll arm of play_game in src/main.rs (lines 167-193).
In state Picking the intent is rejected with no mutation; otherwise
new_roll then determine_type run, and the classification decides the
effect: Farkle empties the hand and ends the turn, Straight and TriplePair
add the produced selection leaving the state unchanged, Simple moves to
Picking. -/
def rollIntent (rng : Fin 6 → Nat) (roll : Roll) (p : Player) (st : GameState) :
    Roll × Player × GameState :=
  if st = GameState.Picking then (roll, p, st)
  else
    let rolled := new_roll rng roll
    match determine_type rolled with
    | (r2, _, RollType.Farkle) => (r2, p.empty_hand, GameState.TurnEnded)
    | (r2, sel, RollType.Straight) => (r2, p.add_selection sel, st)
    | (r2, sel, RollType.TriplePair) => (r2, p.add_selection sel, st)
    | (r2, _, RollType.Simple) => (r2, p, GameState.Picking)

/-- The MoveType::Bank arm of play_game in src/main.rs (lines 195-203):
in state Rolling the player banks and the turn ends; in any other state
the intent is rejected with no mutation. -/
def bankIntent (roll : Roll) (p : Player) (st : GameState) :
    Roll × Player × GameState :=
  if st = GameState.Rolling then
    (roll, (Player.bank p).1, GameState.TurnEnded)
  else (roll, p, st)

/-- The confirmation step at the end of the MoveType::Pick arm of play_game
in src/main.rs (lines 227-240), reached in state Picking: on Ok the
selection joins the hand and the state becomes Rolling; on Err the roll is
deselected and the state stays Picking. -/
def confirmPick (roll : Roll) (p : Player) : Roll × Player × GameState :=
  match construct_selection roll with
  | Except.ok sel => (roll, p.add_selection sel, GameState.Rolling)
  | Except.error _ => (roll.deselect, p, GameState.Picking)

/-- A roll is in range when all six die values are between 1 and 6, the
precondition for the value - 1 array indexing in count_values and
construct_selection to stay in bounds. -/
def DiceInRange (r : Roll) : Prop :=
  ∀ i, 1 ≤ (r.dice i).value ∧ (r.dice i).value ≤ 6

instance (r : Roll) : Decidable (DiceInRange r) := by
  unfold DiceInRange
  infer_instance

/-- The rolls reachable through the public protocol: Roll::default followed
by any interleaving of new_roll, toggle_die, deselect and determine_type.
The raw mutators Die::set_value and Roll::dice_mut are deliberately
excluded. -/
inductive Reachable : Roll → Prop where
  | dflt : Reachable Roll.default
  | roll (rng : Fin 6 → Nat) (r : Roll) : Reachable r → Reachable (new_roll rng r)
  | toggle (i : Fin 6) (r : Roll) : Reachable r → Reachable (toggle_die r i).1
  | desel (r : Roll) : Reachable r → Reachable r.deselect
  | dtype (r : Roll) : Reachable r → Reachable (determine_type r).1

/-- A fixed stream of draws for the random source, used for concrete
instantiations. -/
def rng0 : Fin 6 → Nat := fun _ => 0

/-- A fresh unpicked roll with the given face values. -/
def rollOf (vs : Fin 6 → Nat) : Roll :=
  ⟨fun i => Die.new_with_value (vs i)⟩

/-- Three pairs: the roll of the triple-pair scenario. -/
def triplePairRoll : Roll := rollOf ![2, 2, 3, 3, 5, 5]

/-- All six faces distinct: a straight. -/
def straightRoll : Roll := rollOf ![1, 2, 3, 4, 5, 6]

/-- A roll that is neither a straight nor three pairs but has pickable
dice (the two 1s). -/
def simpleRoll : Roll := rollOf ![1, 1, 2, 3, 4, 6]

/-- Dice [1,1,1,2,2,2], all six toggled in the current pass. -/
def onesTwosRoll : Roll :=
  ⟨fun i => ⟨(![1, 1, 1, 2, 2, 2] : Fin 6 → Nat) i, true, true⟩⟩

/-- Exactly two dice of face 4 toggled this pass, nothing else toggled. -/
def twoFoursRoll : Roll :=
  ⟨fun i => if i.val < 2 then ⟨4, true, true⟩ else ⟨1, false, false⟩⟩

/-- A player with two selections worth 1200 and 3000 in hand and a banked
score of 500. -/
def bankPlayer : Player :=
  { hand := [⟨[1, 1, 1, 2, 2, 2], 1200⟩, ⟨[1, 2, 3, 4, 5, 6], 3000⟩],
    score := 500, name := String.mk [] }

theorem foldl_add_value (l : List Selection) (a : Nat) :
    l.foldl (fun acc sel => acc + sel.value) a = a + (l.map Selection.value).sum := by
  induction l generalizing a with
  | nil => simp
  | cons s l ih => simp [ih, List.sum_cons]; omega

theorem face_set_score_ok {v c s : Nat} (h : face_set_score v c = Except.ok s) :
    s = v * SET_SCALE_VALUE * (c - 2) ∧ (c = 0 ∨ 3 ≤ c) := by
  unfold face_set_score at h
  split at h
  case isTrue h3 =>
    cases h
    exact ⟨rfl, Or.inr h3⟩
  case isFalse h3 =>
    split at h
    case isTrue h0 =>
      cases h
      subst h0
      exact ⟨by simp, Or.inl rfl⟩
    case isFalse h0 => cases h

theorem face_set_score_err {v c : Nat} {e : SelError}
    (h : face_set_score v c = Except.error e) :
    (c = 1 ∨ c = 2) ∧ e = SelError.nonScoringSet := by
  unfold face_set_score at h
  split at h
  · cases h
  · split at h
    · cases h
    · cases h
      exact ⟨by omega, rfl⟩

theorem face_set_score_bad {v c : Nat} (h : c = 1 ∨ c = 2) :
    face_set_score v c = Except.error SelError.nonScoringSet := by
  unfold face_set_score
  split
  · omega
  · split
    · omega
    · rfl

theorem face_set_score_zero (v : Nat) : face_set_score v 0 = Except.ok 0 := by
  unfold face_set_score
  norm_num

theorem ones_score_pos {c : Nat} (h : c ≠ 0) : 0 < ones_score c := by
  unfold ones_score ONE_SET_VALUE ONE_VALUE
  split <;> omega

theorem fives_score_pos {c : Nat} (h : c ≠ 0) : 0 < fives_score c := by
  unfold fives_score FIVE_SET_VALUE FIVE_VALUE
  split <;> omega

theorem chosen_count_pos {r : Roll} {i : Fin 6}
    (h : (r.dice i).picked_this_roll = true) :
    0 < chosen_count r (r.dice i).value := by
  unfold chosen_count
  refine List.length_pos_of_mem (a := i) (List.mem_filter.mpr ⟨List.mem_finRange i, ?_⟩)
  simp [h]

theorem chosen_count_exists {r : Roll} {v : Nat} (h : 0 < chosen_count r v) :
    ∃ i, (r.dice i).picked_this_roll = true ∧ (r.dice i).value = v := by
  unfold chosen_count at h
  obtain ⟨i, hi⟩ := List.exists_mem_of_length_pos h
  have := List.of_mem_filter hi
  simp only [Bool.and_eq_true, beq_iff_eq] at this
  exact ⟨i, this⟩

theorem chosen_count_zero {r : Roll} (h : ∀ i, (r.dice i).picked_this_roll = false)
    (v : Nat) : chosen_count r v = 0 := by
  unfold chosen_count
  simp only [List.length_eq_zero]
  refine List.filter_eq_nil_iff.mpr fun i _ => ?_
  simp [h i]

/-- The shorthand for the total computed by construct_selection when no
face of 2, 3, 4 or 6 has a count of 1 or 2. -/
def sel_total (r : Roll) : Nat :=
  2 * SET_SCALE_VALUE * (chosen_count r 2 - 2) + 3 * SET_SCALE_VALUE * (chosen_count r 3 - 2)
    + 4 * SET_SCALE_VALUE * (chosen_count r 4 - 2) + 6 * SET_SCALE_VALUE * (chosen_count r 6 - 2)
    + ones_score (chosen_count r 1) + fives_score (chosen_count r 5)

theorem construct_selection_ok {r : Roll} {sel : Selection}
    (h : construct_selection r = Except.ok sel) :
    sel = ⟨chosen_values r, sel_total r⟩ ∧ 0 < sel.value ∧
      ∀ v, v ∈ ([2, 3, 4, 6] : List Nat) →
        chosen_count r v = 0 ∨ 3 ≤ chosen_count r v := by
  rw [construct_selection] at h
  split at h <;> try (cases h)
  rename_i s2 s3 s4 s6 h2 h3 h4 h6
  obtain ⟨hs2, hc2⟩ := face_set_score_ok h2
  obtain ⟨hs3, hc3⟩ := face_set_score_ok h3
  obtain ⟨hs4, hc4⟩ := face_set_score_ok h4
  obtain ⟨hs6, hc6⟩ := face_set_score_ok h6
  dsimp only at h
  split at h
  case isTrue hpos =>
    cases h
    subst hs2 hs3 hs4 hs6
    refine ⟨rfl, hpos, ?_⟩
    intro v hv
    simp only [List.mem_cons, List.not_mem_nil, or_false] at hv
    rcases hv with rfl | rfl | rfl | rfl
    · exact hc2
    · exact hc3
    · exact hc4
    · exact hc6
  case isFalse => cases h

theorem construct_selection_err {r : Roll} {e : SelError}
    (h : construct_selection r = Except.error e) :
    (∃ v, v ∈ ([2, 3, 4, 6] : List Nat) ∧
        (chosen_count r v = 1 ∨ chosen_count r v = 2)) ∨
      (∀ v, v ∈ ([1, 2, 3, 4, 5, 6] : List Nat) → chosen_count r v = 0) := by
  rw [construct_selection] at h
  split at h
  case h_2 =>
    rename_i e2 h2
    exact Or.inl ⟨2, by simp, (face_set_score_err h2).1⟩
  case h_3 =>
    rename_i e3 h3 nm2
    exact Or.inl ⟨3, by simp, (face_set_score_err h3).1⟩
  case h_4 =>
    rename_i e4 h4 nm2 nm3
    exact Or.inl ⟨4, by simp, (face_set_score_err h4).1⟩
  case h_5 =>
    rename_i e6 h6 nm2 nm3 nm4
    exact Or.inl ⟨6, by simp, (face_set_score_err h6).1⟩
  case h_1 =>
  rename_i s2 s3 s4 s6 h2 h3 h4 h6
  obtain ⟨hs2, hc2⟩ := face_set_score_ok h2
  obtain ⟨hs3, hc3⟩ := face_set_score_ok h3
  obtain ⟨hs4, hc4⟩ := face_set_score_ok h4
  obtain ⟨hs6, hc6⟩ := face_set_score_ok h6
  dsimp only at h
  split at h
  case isTrue => cases h
  case isFalse hpos =>
    right
    subst hs2 hs3 hs4 hs6
    simp only [SET_SCALE_VALUE] at hpos
    unfold ones_score fives_score ONE_SET_VALUE ONE_VALUE FIVE_SET_VALUE FIVE_VALUE at hpos
    intro v hv
    simp only [List.mem_cons, List.not_mem_nil, or_false] at hv
    split_ifs at hpos <;>
      rcases hv with rfl | rfl | rfl | rfl | rfl | rfl <;> omega

theorem construct_selection_err_of_bad {r : Roll} {v : Nat}
    (hv : v ∈ ([2, 3, 4, 6] : List Nat))
    (hc : chosen_count r v = 1 ∨ chosen_count r v = 2) :
    ∃ e, construct_selection r = Except.error e := by
  cases hcs : construct_selection r with
  | error e => exact ⟨e, rfl⟩
  | ok sel =>
    obtain ⟨-, -, hgood⟩ := construct_selection_ok hcs
    have := hgood v hv
    omega

theorem construct_selection_err_of_none {r : Roll}
    (h : ∀ i, (r.dice i).picked_this_roll = false) :
    construct_selection r = Except.error SelError.nonPositive := by
  have hc := chosen_count_zero h
  rw [construct_selection, hc 2, hc 3, hc 4, hc 6, hc 1, hc 5]
  simp [face_set_score_zero, ones_score, fives_score, ONE_VALUE, FIVE_VALUE]

theorem dir_default : DiceInRange Roll.default := by
  intro i
  have := i.isLt
  simp only [Roll.default, Die.new_with_value]
  omega

theorem dir_new_roll (rng : Fin 6 → Nat) {r : Roll} (h : DiceInRange r) :
    DiceInRange (new_roll rng r) := by
  intro i
  unfold new_roll
  dsimp only
  split
  · split
    · exact dir_default i
    · show 1 ≤ rng i % 6 + 1 ∧ rng i % 6 + 1 ≤ 6
      have : rng i % 6 < 6 := Nat.mod_lt _ (by omega)
      omega
  · split
    · exact h i
    · show 1 ≤ rng i % 6 + 1 ∧ rng i % 6 + 1 ≤ 6
      have : rng i % 6 < 6 := Nat.mod_lt _ (by omega)
      omega

theorem dir_update_pick {r : Roll} (i : Fin 6) (h : DiceInRange r) :
    DiceInRange ⟨Function.update r.dice i (r.dice i).pick⟩ := by
  intro j
  by_cases hj : j = i
  · subst hj
    simp only [Function.update_same, Die.pick]
    exact h j
  · simp only [Function.update_noteq hj]
    exact h j

theorem dir_update_unpick {r : Roll} (i : Fin 6) (h : DiceInRange r) :
    DiceInRange ⟨Function.update r.dice i (r.dice i).unpick⟩ := by
  intro j
  by_cases hj : j = i
  · subst hj
    simp only [Function.update_same, Die.unpick]
    exact h j
  · simp only [Function.update_noteq hj]
    exact h j

theorem dir_toggle (i : Fin 6) {r : Roll} (h : DiceInRange r) :
    DiceInRange (toggle_die r i).1 := by
  unfold toggle_die
  dsimp only
  split
  · split
    · exact dir_update_unpick i h
    · exact h
  · split
    · exact dir_update_pick i h
    · exact h

theorem dir_deselect {r : Roll} (h : DiceInRange r) : DiceInRange r.deselect := by
  intro i
  unfold Roll.deselect
  dsimp only
  split
  · exact h i
  · exact h i

theorem dir_dtype {r : Roll} (h : DiceInRange r) :
    DiceInRange (determine_type r).1 := by
  unfold determine_type
  dsimp only
  split
  · split
    · intro i
      dsimp only
      exact h i
    · intro i
      dsimp only
      exact h i
  · split
    · exact h
    · exact h

/-- The scoring formula as the specification states it, per face value v
with count c: 1000*(c-2) or 100*c for face 1, 500*(c-2) or 50*c for face 5
(the set form whenever c is at least 3), and v*100*(c-2) for any other
face.  Defined from the words of the specification for comparison with the
code-side construct_selection. -/
def spec_face_score (v c : Nat) : Nat :=
  if v = 1 then (if 3 ≤ c then 1000 * (c - 2) else 100 * c)
  else if v = 5 then (if 3 ≤ c then 500 * (c - 2) else 50 * c)
  else v * 100 * (c - 2)

theorem sel_total_spec (r : Roll) :
    sel_total r =
      ((List.range 6).map fun j => spec_face_score (j + 1) (chosen_count r (j + 1))).sum := by
  have h6 : List.range 6 = [0, 1, 2, 3, 4, 5] := rfl
  rw [h6]
  simp only [List.map_cons, List.map_nil, List.sum_cons, List.sum_nil]
  unfold sel_total spec_face_score ones_score fives_score
  unfold SET_SCALE_VALUE ONE_VALUE ONE_SET_VALUE FIVE_VALUE FIVE_SET_VALUE
  norm_num
  split_ifs <;> omega

/-- C2 counterexample: the claim says no core operation ever returns a
Selection whose value is zero, but determine_type on the Simple roll
[1,1,2,3,4,6] returns the default Selection of value 0 alongside
RollType.Simple. -/
theorem determine_type_zero_value_selection :
    (determine_type simpleRoll).2.1.value = 0 ∧
      (determine_type simpleRoll).2.2 = RollType.Simple := by
  decide

/-- C2 (amended): construct_selection only succeeds with a Selection of
strictly positive value, and the Selection produced by determine_type has
strictly positive value whenever the classification is Straight or
TriplePair; for Simple and Farkle classifications determine_type returns
the zero-value default Selection. -/
theorem selection_positive_amended (r : Roll) :
    (∀ sel, construct_selection r = Except.ok sel → 0 < sel.value) ∧
      ((determine_type r).2.2 = RollType.Straight ∨
          (determine_type r).2.2 = RollType.TriplePair →
        0 < (determine_type r).2.1.value) ∧
      ((determine_type r).2.2 = RollType.Simple ∨
          (determine_type r).2.2 = RollType.Farkle →
        (determine_type r).2.1 = Selection.default) := by
  refine ⟨fun sel h => (construct_selection_ok h).2.1, ?_, ?_⟩
  all_goals
    unfold determine_type
    dsimp only
    split
  case isTrue =>
    split <;> simp [STRAIGHT_VALUE, TRIPLE_PAIR_VALUE]
  case isFalse =>
    split <;> simp
  case isTrue =>
    split <;> simp [STRAIGHT_VALUE, TRIPLE_PAIR_VALUE]
  case isFalse =>
    split <;> simp

/-- Instantiation of the amended C2 statement at the straight roll. -/
theorem selection_positive_amended_inst :
    0 < (determine_type straightRoll).2.1.value :=
  (selection_positive_amended straightRoll).2.1 (Or.inl (by decide))

/-- C3: whenever construct_selection succeeds, the value of the returned
Selection equals the sum, over the six face values, of the scoring formula
the specification states (v*100*(c-2) for a face other than 1 and 5,
1000*(c-2) or 100*c for face 1, 500*(c-2) or 50*c for face 5, applied to
the counts of dice picked this roll); in particular the roll [1,1,1,2,2,2]
with every die toggled this pass confirms to the value 1200. -/
theorem construct_selection_value_formula :
    (∀ r sel, construct_selection r = Except.ok sel →
        sel.value =
          ((List.range 6).map fun j => spec_face_score (j + 1) (chosen_count r (j + 1))).sum) ∧
      construct_selection onesTwosRoll = Except.ok ⟨[1, 1, 1, 2, 2, 2], 1200⟩ := by
  constructor
  · intro r sel h
    obtain ⟨hsel, hpos, hgood⟩ := construct_selection_ok h
    subst hsel
    exact sel_total_spec r
  · rfl

/-- Instantiation of C3 at the [1,1,1,2,2,2] roll. -/
theorem construct_selection_value_formula_inst :
    (Selection.value ⟨[1, 1, 1, 2, 2, 2], 1200⟩) =
      ((List.range 6).map fun j =>
        spec_face_score (j + 1) (chosen_count onesTwosRoll (j + 1))).sum :=
  construct_selection_value_formula.1 onesTwosRoll ⟨[1, 1, 1, 2, 2, 2], 1200⟩ rfl

/-- C4: for a roll whose die values are in range, construct_selection
fails exactly when some face value other than 1 and 5 has a count of 1 or
2 among the dice picked this roll, or no die at all is picked this roll
(the zero-total case); and every successful call returns a Selection of
strictly positive value. -/
theorem construct_selection_error_iff (r : Roll) (hr : DiceInRange r) :
    ((∃ e, construct_selection r = Except.error e) ↔
        (∃ v, ¬(v = 1 ∨ v = 5) ∧ (chosen_count r v = 1 ∨ chosen_count r v = 2)) ∨
          ∀ i, (r.dice i).picked_this_roll = false) ∧
      ∀ sel, construct_selection r = Except.ok sel → 0 < sel.value := by
  constructor
  · constructor
    · rintro ⟨e, he⟩
      rcases construct_selection_err he with ⟨v, hv, hc⟩ | hzero
      · refine Or.inl ⟨v, ?_, hc⟩
        simp only [List.mem_cons, List.not_mem_nil, or_false] at hv
        omega
      · refine Or.inr fun i => ?_
        by_contra hne
        have htog : (r.dice i).picked_this_roll = true := by
          revert hne
          cases (r.dice i).picked_this_roll <;> simp
        have hpos := chosen_count_pos htog
        have hrange := hr i
        have := hzero (r.dice i).value (by simp only [List.mem_cons]; omega)
        omega
    · rintro (⟨v, hv15, hc⟩ | hnone)
      · have hpos : 0 < chosen_count r v := by omega
        obtain ⟨i, hi, hvi⟩ := chosen_count_exists hpos
        have hrange := hr i
        have hv : v ∈ ([2, 3, 4, 6] : List Nat) := by
          simp only [List.mem_cons, List.not_mem_nil, or_false]
          omega
        exact construct_selection_err_of_bad hv hc
      · exact ⟨SelError.nonPositive, construct_selection_err_of_none hnone⟩
  · exact fun sel h => (construct_selection_ok h).2.1

/-- Instantiation of C4 at the roll with exactly two 4s toggled. -/
theorem construct_selection_error_iff_inst :
    ∃ e, construct_selection twoFoursRoll = Except.error e :=
  (construct_selection_error_iff twoFoursRoll (by decide)).1.mpr
    (Or.inl ⟨4, by decide, Or.inr (by decide)⟩)

theorem four_filters_le {α : Type} (l : List α) (f : α → Nat) :
    ((l.filter fun a => f a == 1).length + (l.filter fun a => f a == 2).length)
      + ((l.filter fun a => f a == 3).length + (l.filter fun a => f a == 4).length)
      ≤ l.length := by
  induction l with
  | nil => simp
  | cons a l ih =>
    by_cases h1 : f a = 1 <;> by_cases h2 : f a = 2 <;>
      by_cases h3 : f a = 3 <;> by_cases h4 : f a = 4 <;>
      simp [List.filter_cons, h1, h2, h3, h4] <;> omega

theorem count_values_as_f (r : Roll) (v : Nat) (hv : v ≠ 0) :
    count_values r v = ((List.finRange 6).filter fun i =>
      (if (r.dice i).active then (r.dice i).value else 0) == v).length := by
  unfold count_values
  congr 1
  apply List.filter_congr
  intro i _
  by_cases ha : (r.dice i).active
  · simp [ha]
  · have ha' : (r.dice i).active = false := by
      revert ha
      cases (r.dice i).active <;> simp
    cases v with
    | zero => exact absurd rfl hv
    | succ n => simp [ha']

theorem determine_type_not_triple_pair (r : Roll) :
    (determine_type r).2.2 = RollType.Farkle ∨ (determine_type r).2.2 = RollType.Simple ∨
      (determine_type r).2.2 = RollType.Straight := by
  unfold determine_type
  dsimp only
  split
  case isTrue h =>
    split
    case isTrue => simp
    case isFalse hstr =>
      exfalso
      have htp : ((List.range 6).all fun j => count_values r (j + 1) == 2) = true := by
        cases hb1 : ((List.range 6).all fun j => count_values r (j + 1) == 1) with
        | true => exact absurd hb1 hstr
        | false =>
          rw [hb1] at h
          simpa using h
      have hall := List.all_eq_true.mp htp
      have hc1 : count_values r 1 = 2 := by
        have := hall 0 (by simp)
        simpa using this
      have hc2 : count_values r 2 = 2 := by
        have := hall 1 (by simp)
        simpa using this
      have hc3 : count_values r 3 = 2 := by
        have := hall 2 (by simp)
        simpa using this
      have hc4 : count_values r 4 = 2 := by
        have := hall 3 (by simp)
        simpa using this
      have hle := four_filters_le (List.finRange 6)
        (fun i => if (r.dice i).active then (r.dice i).value else 0)
      rw [← count_values_as_f r 1 (by omega), ← count_values_as_f r 2 (by omega),
        ← count_values_as_f r 3 (by omega), ← count_values_as_f r 4 (by omega)] at hle
      simp only [List.length_finRange] at hle
      omega
  case isFalse =>
    split
    · simp
    · simp

/-- C1: the specification says dice [2,2,3,3,5,5] (three pairs) classify
as TriplePair with a Selection of value 2000 auto-picking all six dice,
but the code classifies this roll as Simple with the empty zero-value
Selection and picks no dice; indeed the triple-pair test in determine_type
demands every one of the six face counts to equal 2, which six dice can
never satisfy, so determine_type can only ever report Farkle, Simple or
Straight. -/
theorem determine_type_three_pairs_bug :
    determine_type triplePairRoll = (triplePairRoll, Selection.default, RollType.Simple) ∧
      ∀ r, (determine_type r).2.2 = RollType.Farkle ∨
        (determine_type r).2.2 = RollType.Simple ∨
        (determine_type r).2.2 = RollType.Straight :=
  ⟨by decide, determine_type_not_triple_pair⟩

/-- C5: toggle_die on a picked die unpicks it (clearing both flags) exactly
when picked_this_roll holds and otherwise reports NotUnpickable without
mutation; on an unpicked die it picks it (setting both flags) exactly when
the active count of its face value reaches the required threshold (1 for
faces 1 and 5, 3 otherwise) and otherwise reports NotPickable without
mutation. -/
theorem toggle_die_cases (r : Roll) (i : Fin 6) :
    ((r.dice i).picked = true →
      ((r.dice i).picked_this_roll = true →
        toggle_die r i =
          (⟨Function.update r.dice i (r.dice i).unpick⟩, ToggleResult.Unpicked)) ∧
      ((r.dice i).picked_this_roll = false →
        toggle_die r i = (r, ToggleResult.NotUnpickable))) ∧
    ((r.dice i).picked = false →
      (required (r.dice i).value ≤ count_values r (r.dice i).value →
        toggle_die r i =
          (⟨Function.update r.dice i (r.dice i).pick⟩, ToggleResult.Picked)) ∧
      (count_values r (r.dice i).value < required (r.dice i).value →
        toggle_die r i = (r, ToggleResult.NotPickable))) := by
  constructor
  · intro hp
    constructor
    · intro ht
      unfold toggle_die
      simp [hp, ht]
    · intro ht
      unfold toggle_die
      simp [hp, ht]
  · intro hp
    constructor
    · intro hcount
      unfold toggle_die
      simp [hp, pickable, hcount]
    · intro hcount
      unfold toggle_die
      simp [hp, pickable, Nat.not_le.mpr hcount]

/-- Instantiation of C5: on the three-pairs roll, die 4 (face value 5,
active count 2, requirement 1) is picked by toggle_die. -/
theorem toggle_die_cases_inst :
    toggle_die triplePairRoll 4 =
      (⟨Function.update triplePairRoll.dice 4 ((triplePairRoll.dice 4).pick)⟩,
        ToggleResult.Picked) :=
  ((toggle_die_cases triplePairRoll 4).2 (by decide)).1 (by decide)

/-- C6: new_roll first replaces an exhausted roll (all six dice picked) by
a fresh pool, after which every die comes out unpicked with a value in
1..=6; on a non-exhausted roll every picked die keeps its value and only
has picked_this_roll cleared, while every unpicked die is re-rolled to a
value in 1..=6.  new_roll is an operation on the Roll alone (in Rust and
here it never touches a Player, so a hot-dice reset cannot change the
hand). -/
theorem new_roll_effect (rng : Fin 6 → Nat) (r : Roll) :
    (r.is_exhausted = true →
      ∀ i, (new_roll rng r).dice i = ⟨rng i % 6 + 1, false, false⟩) ∧
    (r.is_exhausted = false →
      ∀ i, ((r.dice i).picked = true →
          (new_roll rng r).dice i = { r.dice i with picked_this_roll := false }) ∧
        ((r.dice i).picked = false →
          (new_roll rng r).dice i = { r.dice i with value := rng i % 6 + 1 })) ∧
    (∀ i, 1 ≤ rng i % 6 + 1 ∧ rng i % 6 + 1 ≤ 6) := by
  refine ⟨?_, ?_, ?_⟩
  · intro hex i
    unfold new_roll
    simp [hex, Roll.default, Die.new_with_value]
  · intro hex i
    constructor
    · intro hp
      unfold new_roll
      simp [hex, hp]
    · intro hp
      unfold new_roll
      simp [hex, hp]
  · intro i
    have : rng i % 6 < 6 := Nat.mod_lt _ (by omega)
    omega

/-- Instantiation of C6 at the default roll (not exhausted), die 0. -/
theorem new_roll_effect_inst :
    (new_roll rng0 Roll.default).dice 0 =
      { Roll.default.dice 0 with value := rng0 0 % 6 + 1 } :=
  (((new_roll_effect rng0 Roll.default).2.1 (by decide)) 0).2 (by decide)

/-- C7: the Roll intent of the turn state machine: rejected with no
mutation in state Picking; in any other state it runs new_roll and
determine_type, then on Farkle empties the hand and ends the turn, on
Straight or TriplePair adds the produced Selection to the hand leaving the
state unchanged, and on Simple moves to state Picking. -/
theorem roll_intent_transitions (rng : Fin 6 → Nat) (roll : Roll) (p : Player)
    (st : GameState) :
    (st = GameState.Picking → rollIntent rng roll p st = (roll, p, st)) ∧
    (st ≠ GameState.Picking →
      ((determine_type (new_roll rng roll)).2.2 = RollType.Farkle →
        rollIntent rng roll p st =
          ((determine_type (new_roll rng roll)).1, p.empty_hand, GameState.TurnEnded)) ∧
      ((determine_type (new_roll rng roll)).2.2 = RollType.Straight ∨
          (determine_type (new_roll rng roll)).2.2 = RollType.TriplePair →
        rollIntent rng roll p st =
          ((determine_type (new_roll rng roll)).1,
            p.add_selection (determine_type (new_roll rng roll)).2.1, st)) ∧
      ((determine_type (new_roll rng roll)).2.2 = RollType.Simple →
        rollIntent rng roll p st =
          ((determine_type (new_roll rng roll)).1, p, GameState.Picking))) := by
  constructor
  · intro hst
    unfold rollIntent
    simp [hst]
  · intro hst
    rcases hdt : determine_type (new_roll rng roll) with ⟨r2, sel, ty⟩
    cases ty <;>
      simp_all [rollIntent, hdt]

/-- Instantiation of C7: from state FirstRoll with the all-ones re-roll
the classification is Simple and the machine moves to Picking. -/
theorem roll_intent_transitions_inst :
    rollIntent rng0 Roll.default (Player.new (String.mk [])) GameState.FirstRoll =
      ((determine_type (new_roll rng0 Roll.default)).1, Player.new (String.mk []),
        GameState.Picking) :=
  ((roll_intent_transitions rng0 Roll.default (Player.new (String.mk []))
      GameState.FirstRoll).2 (by decide)).2.2 (by decide)

/-- C8: Player::bank adds exactly the sum of the hand values to the
score, empties the hand (keeping the name) and returns that sum; the Bank
intent in state Rolling banks and moves to TurnEnded; in particular a
hand worth [1200, 3000] on top of a prior score of 500 banks to 4700 with
an empty hand. -/
theorem bank_adds_hand_total :
    (∀ p : Player,
      (Player.bank p).1.score = p.score + (p.hand.map Selection.value).sum ∧
        (Player.bank p).1.hand = [] ∧ (Player.bank p).1.name = p.name ∧
        (Player.bank p).2 = (p.hand.map Selection.value).sum) ∧
    (∀ (roll : Roll) (p : Player),
      bankIntent roll p GameState.Rolling = (roll, (Player.bank p).1, GameState.TurnEnded)) ∧
    (Player.bank bankPlayer).1.score = 4700 ∧ (Player.bank bankPlayer).1.hand = [] ∧
      (Player.bank bankPlayer).2 = 4200 := by
  refine ⟨?_, ?_, by decide, by decide, by decide⟩
  · intro p
    refine ⟨?_, rfl, rfl, ?_⟩ <;>
      simp [Player.bank, foldl_add_value]
  · intro roll p
    unfold bankIntent
    simp

/-- C9: every roll reachable through Roll::default, new_roll, toggle_die,
deselect and determine_type has all six die values in 1..=6, and the
freshly created default roll is initialized with the values 1 through 6
(not zero); hence the value - 1 indexing inside count_values and
construct_selection stays in bounds on every reachable roll. -/
theorem reachable_dice_in_range :
    (∀ r, Reachable r → DiceInRange r) ∧
      (List.finRange 6).map (fun i => (Roll.default.dice i).value) =
        [1, 2, 3, 4, 5, 6] := by
  constructor
  · intro r h
    induction h with
    | dflt => exact dir_default
    | roll rng r hr ih => exact dir_new_roll rng ih
    | toggle i r hr ih => exact dir_toggle i ih
    | desel r hr ih => exact dir_deselect ih
    | dtype r hr ih => exact dir_dtype ih
  · decide

/-- Instantiation of C9 at a roll reached by one re-roll from default. -/
theorem reachable_dice_in_range_inst :
    DiceInRange (new_roll rng0 Roll.default) :=
  reachable_dice_in_range.1 (new_roll rng0 Roll.default)
    (Reachable.roll rng0 Roll.default Reachable.dflt)

/-- C10: construct_selection borrows the roll immutably (&self in Rust; a
pure function of the roll here), so a confirmation pass leaves every
die's value and flags exactly as before the call: on success the machine
step keeps the roll unchanged, and on failure the pending toggles are
still in place as the input that the caller then hands to deselect. -/
theorem construct_selection_preserves_roll (r : Roll) (p : Player) :
    (∀ sel, construct_selection r = Except.ok sel →
      (confirmPick r p).1 = r ∧ ∀ i, ((confirmPick r p).1.dice i).value = (r.dice i).value ∧
        ((confirmPick r p).1.dice i).picked = (r.dice i).picked ∧
        ((confirmPick r p).1.dice i).picked_this_roll = (r.dice i).picked_this_roll) ∧
    (∀ e, construct_selection r = Except.error e →
      (confirmPick r p).1 = Roll.deselect r ∧
        (confirmPick r p).2.2 = GameState.Picking) := by
  constructor
  · intro sel h
    unfold confirmPick
    rw [h]
    exact ⟨rfl, fun i => ⟨rfl, rfl, rfl⟩⟩
  · intro e h
    unfold confirmPick
    rw [h]
    exact ⟨rfl, rfl⟩

/-- Instantiation of C10 at the [1,1,1,2,2,2] roll, whose confirmation
succeeds. -/
theorem construct_selection_preserves_roll_inst :
    (confirmPick onesTwosRoll (Player.new (String.mk []))).1 = onesTwosRoll :=
  ((construct_selection_preserves_roll onesTwosRoll (Player.new (String.mk []))).1
    ⟨[1, 1, 1, 2, 2, 2], 1200⟩ rfl).1

end Farkle
